import Mathlib

/-!
Shallow embedding of the SolveLicita scoring engine.

Sources embedded here:
  * `src/src/score/solvency.py` — weights, pendency severity sets, the
    normalizers `pontuar_eorcam`, `pontuar_rrestos`, `pontuar_ccauc`, the
    state-median fallback for missing arrears, the weighted aggregation
    (step 6), the `dado_suspeito` flag and the risk classifier.
  * `src/src/score/dca_scorer.py` — the cash-solvency normalizer
    `pontuar_scaixa` and its anomaly flag.

Conventions of the embedding:
  * Python floats are modelled as exact rationals (`ℚ`); Python's
    `round(x, n)` is modelled by `roundTo n` below.  Python rounds
    half-to-even while `round` here rounds half-up; the two agree on every
    value that is not an exact tie at the last kept digit, and no statement
    in this development evaluates `roundTo` at such a tie.
  * `pd.isna`-style missing values are modelled by `Option`; NaN
    propagation through arithmetic is modelled by `Option` propagation.
  * Python strings are modelled by `String`, with `str.strip`, `str.upper`
    and `str.split("|")` re-implemented structurally over `String.data`
    (`trimC`, `upperC`, `splitPipe`).  `upperC` upcases ASCII letters,
    which is what decides the `== "REGULAR"` test; `trimC` strips the
    standard whitespace characters.
-/

/-- `round(x, n)` of Python over exact rationals: round `x` to `n` decimal
digits. -/
def roundTo (n : ℕ) (x : ℚ) : ℚ := (round (x * 10 ^ n) : ℚ) / 10 ^ n

/-! ### Weights (solvency.py, `PESOS`, Phase 0) -/

def PESOS_eorcam : ℚ := 31

def PESOS_rrestos : ℚ := 25

def PESOS_qsiconfi : ℚ := 19

def PESOS_ccauc : ℚ := 25

def PESO_TOTAL : ℚ := PESOS_eorcam + PESOS_rrestos + PESOS_qsiconfi + PESOS_ccauc

/-! ### CAUC pendency severity sets (solvency.py) -/

def PENDENCIAS_GRAVES : List String :=
  ["Regularidade Fiscal (RFB)",
   "Regularidade PGFN",
   "CADIN",
   "SISTN (Dívida Consolidada)",
   "LRF - Limite Pessoal Executivo",
   "Adimplência TCU",
   "Adimplência CGU"]

def PENDENCIAS_MODERADAS : List String :=
  ["Regularidade FGTS",
   "Regularidade Trabalhista (TST)",
   "SIOPS (Saúde)",
   "SIOPE (Educação)",
   "SICONV/TRANSFEREGOV Prestação de Contas",
   "SISTN (Garantias)",
   "LRF - Limite Pessoal Legislativo"]

/-! ### String helpers: `strip`, `upper`, `split("|")` -/

/-- Python `str.strip()` over the character list (standard whitespace). -/
def trimC (l : List Char) : List Char :=
  ((l.dropWhile Char.isWhitespace).reverse.dropWhile Char.isWhitespace).reverse

/-- Python `str.upper()` over the character list (ASCII letters). -/
def upperC (l : List Char) : List Char := l.map Char.toUpper

/-- Python `str.split("|")`: splitting an empty string yields `[""]`. -/
def splitPipe : List Char → List (List Char)
  | [] => [[]]
  | c :: cs =>
    if c = '|' then [] :: splitPipe cs
    else
      match splitPipe cs with
      | [] => [[c]]
      | h :: t => (c :: h) :: t

/-- `itens` of `pontuar_ccauc`: `[p.strip() for p in pendencias_str.split("|")]`. -/
def itens (s : String) : List String :=
  (splitPipe s.data).map (fun l => String.mk (trimC l))

/-- The test `pendencias_str.strip().upper() == "REGULAR"`. -/
def normREG (s : String) : Bool :=
  decide (upperC (trimC s.data) = "REGULAR".data)

/-! ### Normalizers (solvency.py) -/

/-- `pontuar_eorcam` of solvency.py: threshold score of mean budget
execution. -/
def pontuar_eorcam (x : ℚ) : ℚ :=
  if 90 ≤ x ∧ x ≤ 105 then 1
  else if 120 < x then 1/2
  else if 105 < x then roundTo 4 (1 - (x - 105) / 30)
  else if 70 ≤ x then roundTo 4 ((x - 70) / 20)
  else 0

/-- `pontuar_rrestos` of solvency.py: threshold score of non-processed
arrears; negative inputs are clamped to `0` first. -/
def pontuar_rrestos (x0 : ℚ) : ℚ :=
  let x := max x0 0
  if x = 0 then 1
  else if 10 ≤ x then 0
  else if x ≤ 3 then roundTo 4 (1 - (x / 3) * (3/10))
  else roundTo 4 ((7/10) * (1 - (x - 3) / 7) ^ 2)

/-- `n_mod` of `pontuar_ccauc`: number of items in the moderate set. -/
def nMod (l : List String) : ℕ :=
  (l.filter (fun i => decide (i ∈ PENDENCIAS_MODERADAS))).length

/-- `n_leve` of `pontuar_ccauc`: number of items not in the moderate set. -/
def nLeve (l : List String) : ℕ :=
  (l.filter (fun i => decide (i ∉ PENDENCIAS_MODERADAS))).length

/-- The body of `pontuar_ccauc` after splitting: a severe item forces `1`,
otherwise `round(min(pontos / 20, 0.5), 4)` with
`pontos = n_mod * 2 + n_leve * 1`. -/
def pontuar_ccauc_itens (l : List String) : ℚ :=
  if l.any (fun i => decide (i ∈ PENDENCIAS_GRAVES)) then 1
  else roundTo 4 (min (((nMod l * 2 + nLeve l * 1 : ℕ) : ℚ) / 20) (1/2))

/-- `pontuar_ccauc` of solvency.py.  `none` is the non-string (`NaN`)
input, which returns risk `0.0`. -/
def pontuar_ccauc : Option String → ℚ
  | none => 0
  | some s => if normREG s then 0 else pontuar_ccauc_itens (itens s)

/-- The per-row flag `dado_suspeito = rrestos_raw < 0` (missing → False,
as `NaN < 0` is False and the join fills missing flags with False). -/
def dado_suspeito_rrestos : Option ℚ → Bool
  | none => false
  | some x => decide (x < 0)

/-! ### Median fallback and aggregation (solvency.py, steps 5–7) -/

/-- One row of the joined master table (step 5 of solvency.py):
`eorcam_raw`/`rrestos_raw` from the SICONFI aggregation (missing when the
entity has no delivered year for that column), `qsiconfi` from the RREO
delivery count, `ccauc` from the CAUC join (already normalized by
`pontuar_ccauc`; missing when the entity is absent from CAUC). -/
structure Row where
  eorcam_raw : Option ℚ
  rrestos_raw : Option ℚ
  qsiconfi : Option ℚ
  ccauc : Option ℚ

def insertSorted (x : ℚ) : List ℚ → List ℚ
  | [] => [x]
  | y :: ys => if x ≤ y then x :: y :: ys else y :: insertSorted x ys

def sortQ : List ℚ → List ℚ
  | [] => []
  | x :: xs => insertSorted x (sortQ xs)

/-- `Series.median()` of pandas over the present values: sort, take the
middle element (odd length) or the mean of the two middle elements (even
length); the median of an empty series is missing. -/
def mediana (xs : List ℚ) : Option ℚ :=
  let ys := sortQ xs
  if ys.length = 0 then none
  else if ys.length % 2 = 1 then ys[ys.length / 2]?
  else
    match ys[ys.length / 2 - 1]?, ys[ys.length / 2]? with
    | some a, some b => some ((a + b) / 2)
    | _, _ => none

/-- `mediana_rrestos = df_fis["rrestos_raw"].clip(lower=0).median()`:
state median of the clamped raw arrears over the rows that have data. -/
def medianaRrestos (rows : List Row) : Option ℚ :=
  mediana ((rows.filterMap Row.rrestos_raw).map (fun x => max x 0))

/-- `rrestos_norm` after the median fallback: score the raw value when
present; otherwise (when `eorcam_raw` is present, the mask of step "Aplica
mediana") score the state median. -/
def rrestosNorm (med : Option ℚ) (r : Row) : Option ℚ :=
  match r.rrestos_raw with
  | some x => some (pontuar_rrestos x)
  | none => if r.eorcam_raw.isSome then med.map pontuar_rrestos else none

/-- Steps 6 of solvency.py for one row: the four weighted contributions
summed and rounded to 1 decimal, then the override
`df.loc[df["eorcam_raw"].isna(), "score"] = None`.  A missing
`rrestos_norm` (offline median over an empty series) propagates as NaN
through the sum, hence `none`. -/
def scoreRow (med : Option ℚ) (r : Row) : Option ℚ :=
  match r.eorcam_raw with
  | none => none
  | some e =>
    match rrestosNorm med r with
    | none => none
    | some rn =>
      some (roundTo 1 (PESOS_eorcam * pontuar_eorcam e
        + PESOS_rrestos * rn
        + PESOS_qsiconfi * r.qsiconfi.getD 0
        + PESOS_ccauc * (1 - r.ccauc.getD 1)))

/-- The whole two-phase pass: compute the state median once, then score
every row with it. -/
def scoreTable (rows : List Row) : List (Option ℚ) :=
  rows.map (scoreRow (medianaRrestos rows))

/-- `classificar` of solvency.py (step 7). -/
def classificar : Option ℚ → String
  | none => "⚫ Sem Dados"
  | some s =>
    if 75 ≤ s then "🟢 Risco Baixo"
    else if 55 ≤ s then "🟡 Risco Médio"
    else if 35 ≤ s then "🔴 Risco Alto"
    else "⛔ Crítico"

/-! ### dca_scorer.py -/

def SCAIXA_CAP : ℚ := -(1/2)

def SCAIXA_ANOMALIA : ℚ := -(1/2)

/-- The `0.00 – 0.10` branch of `pontuar_scaixa`:
`round(0.50 + (x / 0.10) * 0.25, 4)`. -/
def scaixaRampa (x : ℚ) : ℚ := roundTo 4 (1/2 + (x / (1/10)) * (1/4))

/-- The negative branch of `pontuar_scaixa`:
`round(max(0.0, 0.50 * (1 - (-x / 0.50)) ** 2), 4)`. -/
def scaixaNeg (x : ℚ) : ℚ := roundTo 4 (max 0 ((1/2) * (1 - (-x / (1/2))) ^ 2))

/-- `pontuar_scaixa` of dca_scorer.py: capping at `SCAIXA_CAP`, then the
threshold branches. -/
def pontuar_scaixa (x0 : ℚ) : ℚ :=
  let x := max x0 SCAIXA_CAP
  if 1/5 ≤ x then 1
  else if 1/10 ≤ x then 3/4
  else if 0 ≤ x then scaixaRampa x
  else scaixaNeg x

/-- The DCA anomaly flag (carregar_dca):
`scaixa_medio.notna() & (scaixa_medio < SCAIXA_ANOMALIA)`. -/
def dado_suspeito_scaixa : Option ℚ → Bool
  | none => false
  | some x => decide (x < SCAIXA_ANOMALIA)

/-! ### Concrete rows used by the end-to-end statements -/

/-- End-to-end scenario 1 of the spec: `eorcam=95, rrestos=0, qsiconfi=1.0,
pendencias="REGULAR"`. -/
def entidadeCenario1 : Row :=
  { eorcam_raw := some 95
    rrestos_raw := some 0
    qsiconfi := some 1
    ccauc := some (pontuar_ccauc (some "REGULAR")) }

/-- An entity absent from the SICONFI dataset: every SICONFI-derived field
is missing; CAUC says the entity is regular. -/
def entidadeSemSiconfi : Row :=
  { eorcam_raw := none
    rrestos_raw := none
    qsiconfi := none
    ccauc := some 0 }

/-! ### Rounding helper lemmas -/

theorem roundTo_mono {n : ℕ} {x y : ℚ} (h : x ≤ y) : roundTo n x ≤ roundTo n y := by
  unfold roundTo
  have hp : (0:ℚ) < 10 ^ n := by positivity
  have h2 : round (x * 10 ^ n) ≤ round (y * 10 ^ n) := by
    rw [round_eq, round_eq]
    exact Int.floor_mono (by nlinarith)
  exact (div_le_div_iff_of_pos_right hp).mpr (by exact_mod_cast h2)

theorem roundTo_eq_self {n : ℕ} {x : ℚ} (m : ℤ) (h : x * 10 ^ n = (m : ℚ)) :
    roundTo n x = x := by
  have hp : (0:ℚ) < 10 ^ n := by positivity
  unfold roundTo
  rw [h, round_intCast, ← h]
  field_simp

theorem roundTo_zero (n : ℕ) : roundTo n 0 = 0 :=
  roundTo_eq_self 0 (by norm_num)

theorem roundTo_one (n : ℕ) : roundTo n 1 = 1 :=
  roundTo_eq_self (10 ^ n) (by push_cast; ring)

theorem roundTo_nonneg {n : ℕ} {x : ℚ} (h : 0 ≤ x) : 0 ≤ roundTo n x := by
  have := roundTo_mono (n := n) h
  rwa [roundTo_zero] at this

theorem roundTo_le_one {n : ℕ} {x : ℚ} (h : x ≤ 1) : roundTo n x ≤ 1 := by
  have := roundTo_mono (n := n) h
  rwa [roundTo_one] at this

theorem roundTo_half (n : ℕ) (h : 1 ≤ n) : roundTo n (1/2) = 1/2 := by
  obtain ⟨k, rfl⟩ := Nat.exists_eq_add_of_le h
  refine roundTo_eq_self (5 * 10 ^ k) ?_
  push_cast [pow_add]
  ring

/-! ### Range lemmas for the normalizers -/

theorem pontuar_eorcam_mem (x : ℚ) : 0 ≤ pontuar_eorcam x ∧ pontuar_eorcam x ≤ 1 := by
  unfold pontuar_eorcam
  split_ifs with h1 h2 h3 h4
  · norm_num
  · norm_num
  · push_neg at h1 h2
    exact ⟨roundTo_nonneg (by linarith), roundTo_le_one (by linarith)⟩
  · push_neg at h1 h2 h3
    have hx : x < 90 := by
      by_contra hc
      push_neg at hc
      linarith [h1 hc]
    exact ⟨roundTo_nonneg (by linarith), roundTo_le_one (by linarith)⟩
  · norm_num

theorem pontuar_rrestos_mem (x : ℚ) : 0 ≤ pontuar_rrestos x ∧ pontuar_rrestos x ≤ 1 := by
  unfold pontuar_rrestos
  dsimp only
  have hc : (0:ℚ) ≤ max x 0 := le_max_right x 0
  split_ifs with h1 h2 h3
  · norm_num
  · norm_num
  · refine ⟨roundTo_nonneg (by nlinarith), roundTo_le_one (by nlinarith)⟩
  · push_neg at h1 h2 h3
    refine ⟨roundTo_nonneg (by positivity), roundTo_le_one (by nlinarith [sq_nonneg (1 - (max x 0 - 3) / 7), sq_nonneg (max x 0 - 3)])⟩

theorem roundTo_four_min_pontos (p : ℕ) :
    roundTo 4 (min ((p:ℚ)/20) (1/2)) = min ((p:ℚ)/20) (1/2) := by
  rcases le_total ((p:ℚ)/20) (1/2) with h | h
  · rw [min_eq_left h]
    exact roundTo_eq_self (500 * p) (by push_cast; ring)
  · rw [min_eq_right h]
    exact roundTo_half 4 (by norm_num)

theorem pontuar_ccauc_itens_mem (l : List String) :
    0 ≤ pontuar_ccauc_itens l ∧ pontuar_ccauc_itens l ≤ 1 := by
  unfold pontuar_ccauc_itens
  split_ifs with h
  · norm_num
  · rw [roundTo_four_min_pontos]
    constructor
    · exact le_min (by positivity) (by norm_num)
    · exact le_trans (min_le_right _ _) (by norm_num)

theorem pontuar_ccauc_mem (p : Option String) :
    0 ≤ pontuar_ccauc p ∧ pontuar_ccauc p ≤ 1 := by
  cases p with
  | none => norm_num [pontuar_ccauc]
  | some s =>
    simp only [pontuar_ccauc]
    split_ifs with h
    · norm_num
    · exact pontuar_ccauc_itens_mem (itens s)

theorem pontuar_scaixa_mem (x : ℚ) : 0 ≤ pontuar_scaixa x ∧ pontuar_scaixa x ≤ 1 := by
  unfold pontuar_scaixa
  dsimp only
  have hcap : SCAIXA_CAP ≤ max x SCAIXA_CAP := le_max_right x SCAIXA_CAP
  rw [SCAIXA_CAP] at hcap
  split_ifs with h1 h2 h3
  · norm_num
  · norm_num
  · unfold scaixaRampa
    push_neg at h2
    exact ⟨roundTo_nonneg (by nlinarith), roundTo_le_one (by nlinarith)⟩
  · unfold scaixaNeg
    push_neg at h3
    have ha : (0:ℚ) ≤ 1 + 2 * max x SCAIXA_CAP := by rw [SCAIXA_CAP]; linarith
    have hb : 1 + 2 * max x SCAIXA_CAP ≤ 1 := by
      have := h3
      rw [SCAIXA_CAP]
      rw [SCAIXA_CAP] at this
      linarith
    constructor
    · exact roundTo_nonneg (le_max_left 0 _)
    · refine roundTo_le_one (max_le (by norm_num) ?_)
      have h4 : 1 - -(max x SCAIXA_CAP) / (1/2) = 1 + 2 * max x SCAIXA_CAP := by ring
      rw [h4]
      nlinarith

/-! ### Shape lemmas for the normalizers -/

theorem pontuar_eorcam_flat {x : ℚ} (h1 : 90 ≤ x) (h2 : x ≤ 105) : pontuar_eorcam x = 1 := by
  unfold pontuar_eorcam
  rw [if_pos ⟨h1, h2⟩]

theorem pontuar_eorcam_anti_high {x y : ℚ} (hx : 105 < x) (hxy : x ≤ y) :
    pontuar_eorcam y ≤ pontuar_eorcam x := by
  unfold pontuar_eorcam
  have hx1 : ¬(90 ≤ x ∧ x ≤ 105) := by rintro ⟨_, h⟩; linarith
  have hy1 : ¬(90 ≤ y ∧ y ≤ 105) := by rintro ⟨_, h⟩; linarith
  rw [if_neg hx1, if_neg hy1]
  by_cases hx2 : 120 < x
  · rw [if_pos hx2, if_pos (show 120 < y by linarith)]
  · rw [if_neg hx2, if_pos hx]
    push_neg at hx2
    by_cases hy2 : 120 < y
    · rw [if_pos hy2]
      have h12 : (1/2 : ℚ) ≤ 1 - (x - 105) / 30 := by linarith
      have := roundTo_mono (n := 4) h12
      rwa [roundTo_half 4 (by norm_num)] at this
    · rw [if_neg hy2, if_pos (show 105 < y by linarith)]
      exact roundTo_mono (by linarith)

theorem pontuar_eorcam_mono_low {x y : ℚ} (hxy : x ≤ y) (hy : y < 90) :
    pontuar_eorcam x ≤ pontuar_eorcam y := by
  unfold pontuar_eorcam
  have hx1 : ¬(90 ≤ x ∧ x ≤ 105) := by rintro ⟨h, _⟩; linarith
  have hy1 : ¬(90 ≤ y ∧ y ≤ 105) := by rintro ⟨h, _⟩; linarith
  rw [if_neg hx1, if_neg hy1, if_neg (show ¬120 < x by linarith),
    if_neg (show ¬120 < y by linarith), if_neg (show ¬105 < x by linarith),
    if_neg (show ¬105 < y by linarith)]
  by_cases hx4 : 70 ≤ x
  · rw [if_pos hx4, if_pos (show 70 ≤ y by linarith)]
    exact roundTo_mono (by linarith)
  · rw [if_neg hx4]
    by_cases hy4 : 70 ≤ y
    · rw [if_pos hy4]
      exact roundTo_nonneg (by linarith)
    · rw [if_neg hy4]

theorem pontuar_rrestos_zero : pontuar_rrestos 0 = 1 := by
  unfold pontuar_rrestos
  norm_num

theorem pontuar_rrestos_ten : pontuar_rrestos 10 = 0 := by
  unfold pontuar_rrestos
  dsimp only
  rw [max_eq_left (by norm_num)]
  norm_num

theorem pontuar_rrestos_neg {x : ℚ} (h : x < 0) : pontuar_rrestos x = 1 := by
  unfold pontuar_rrestos
  dsimp only
  rw [max_eq_right (le_of_lt h)]
  norm_num

theorem pontuar_rrestos_anti {x y : ℚ} (hx : 0 ≤ x) (hxy : x ≤ y) (hy : y ≤ 10) :
    pontuar_rrestos y ≤ pontuar_rrestos x := by
  by_cases hx0 : x = 0
  · have h1 : pontuar_rrestos x = 1 := by rw [hx0]; exact pontuar_rrestos_zero
    rw [h1]
    exact (pontuar_rrestos_mem y).2
  have hxpos : 0 < x := lt_of_le_of_ne hx (Ne.symm hx0)
  by_cases hy10 : 10 ≤ y
  · have h2 : pontuar_rrestos y = 0 := by
      unfold pontuar_rrestos
      dsimp only
      rw [max_eq_left (by linarith)]
      rw [if_neg (by linarith), if_pos hy10]
    rw [h2]
    exact (pontuar_rrestos_mem x).1
  push_neg at hy10
  unfold pontuar_rrestos
  dsimp only
  rw [max_eq_left hx, max_eq_left (le_trans hx hxy)]
  rw [if_neg hx0, if_neg (show ¬y = 0 from ne_of_gt (by linarith)), if_neg (show ¬10 ≤ x by linarith),
    if_neg (show ¬10 ≤ y by linarith)]
  by_cases hx3 : x ≤ 3
  · rw [if_pos hx3]
    by_cases hy3 : y ≤ 3
    · rw [if_pos hy3]
      exact roundTo_mono (by nlinarith)
    · rw [if_neg hy3]
      push_neg at hy3
      refine roundTo_mono ?_
      nlinarith [sq_nonneg (1 - (y - 3) / 7), sq_nonneg (10 - y)]
  · rw [if_neg hx3]
    have hy3 : ¬y ≤ 3 := by push_neg at hx3 ⊢; linarith
    rw [if_neg hy3]
    push_neg at hx3 hy3
    refine roundTo_mono ?_
    nlinarith [mul_nonneg (show (0:ℚ) ≤ (y - x) / 7 by linarith)
      (show (0:ℚ) ≤ (1 - (x - 3) / 7) + (1 - (y - 3) / 7) by linarith)]

theorem pontuar_ccauc_itens_sem_grave {l : List String}
    (h : (l.any fun i => decide (i ∈ PENDENCIAS_GRAVES)) = false) :
    pontuar_ccauc_itens l = min (((nMod l * 2 + nLeve l * 1 : ℕ) : ℚ) / 20) (1/2) := by
  unfold pontuar_ccauc_itens
  rw [h]
  simp only [Bool.false_eq_true, if_false]
  exact roundTo_four_min_pontos _

theorem any_grave_of_exists {l : List String} (h : ∃ i ∈ l, i ∈ PENDENCIAS_GRAVES) :
    (l.any fun i => decide (i ∈ PENDENCIAS_GRAVES)) = true := by
  obtain ⟨i, hi, hg⟩ := h
  exact List.any_eq_true.mpr ⟨i, hi, decide_eq_true hg⟩

theorem any_grave_false_of_forall {l : List String} (h : ∀ i ∈ l, i ∉ PENDENCIAS_GRAVES) :
    (l.any fun i => decide (i ∈ PENDENCIAS_GRAVES)) = false := by
  cases hb : (l.any fun i => decide (i ∈ PENDENCIAS_GRAVES)) with
  | false => rfl
  | true =>
    obtain ⟨i, hi, hg⟩ := List.any_eq_true.mp hb
    exact absurd (of_decide_eq_true hg) (h i hi)

/-- C3: a severe pendency saturates the CAUC risk to exactly 1.0 no matter
what other labels are present, and a non-REGULAR pendency string with no
severe label scores `min((2·#moderate + 1·#other)/20, 0.5)`, hence never
above 0.5. -/
theorem ccauc_gravidade_sobrepoe :
    (∀ l : List String, (∃ i ∈ l, i ∈ PENDENCIAS_GRAVES) → pontuar_ccauc_itens l = 1) ∧
    (∀ s : String, normREG s = false →
      ((∃ i ∈ itens s, i ∈ PENDENCIAS_GRAVES) → pontuar_ccauc (some s) = 1) ∧
      ((∀ i ∈ itens s, i ∉ PENDENCIAS_GRAVES) →
        pontuar_ccauc (some s)
          = min (((nMod (itens s) * 2 + nLeve (itens s) * 1 : ℕ) : ℚ) / 20) (1/2) ∧
        pontuar_ccauc (some s) ≤ 1/2)) := by
  have hit : ∀ l : List String, (∃ i ∈ l, i ∈ PENDENCIAS_GRAVES) → pontuar_ccauc_itens l = 1 := by
    intro l h
    unfold pontuar_ccauc_itens
    rw [any_grave_of_exists h]
    simp
  refine ⟨hit, fun s hs => ⟨fun h => ?_, fun h => ?_⟩⟩
  · simp only [pontuar_ccauc, hs, Bool.false_eq_true, if_false]
    exact hit _ h
  · have hf := any_grave_false_of_forall h
    have he : pontuar_ccauc (some s) = pontuar_ccauc_itens (itens s) := by
      simp only [pontuar_ccauc, hs, Bool.false_eq_true, if_false]
    rw [he, pontuar_ccauc_itens_sem_grave hf]
    exact ⟨rfl, min_le_right _ _⟩

/-- C3 witness: "CADIN" (severe) paired with ten moderate labels still
scores 1.0; two non-severe labels stay below 0.5. -/
theorem ccauc_gravidade_sobrepoe_witness :
    pontuar_ccauc_itens ("CADIN" :: List.replicate 10 "Regularidade FGTS") = 1 ∧
    pontuar_ccauc (some "SIOPS (Saúde)|Regularidade FGTS") ≤ 1/2 := by
  constructor
  · exact ccauc_gravidade_sobrepoe.1 _ ⟨"CADIN", by simp, by decide⟩
  · exact ((ccauc_gravidade_sobrepoe.2 "SIOPS (Saúde)|Regularidade FGTS" (by rfl)).2
      (by decide)).2

/-- C4 counterexample: the empty (blank) pendency string is a string, is
not "REGULAR", and splits into the single empty label, which counts as one
light pendency: the risk is 0.05, not 0.0 as the claim states. -/
theorem ccauc_blank_counterexample :
    pontuar_ccauc (some "") = 1/20 ∧ (1/20 : ℚ) ≠ 0 := by
  constructor
  · have h1 : normREG "" = false := rfl
    have h2 : itens "" = [""] := rfl
    simp only [pontuar_ccauc, h1, Bool.false_eq_true, if_false, h2]
    rw [pontuar_ccauc_itens_sem_grave (by rfl)]
    rw [show nMod [""] = 0 from rfl, show nLeve [""] = 1 from rfl]
    norm_num
  · norm_num

/-- C4 amended: a missing (non-string) input scores 0.0, any input whose
stripped upper-cased form is "REGULAR" scores 0.0, and the classifier body
on an empty label list yields 0.0 — but a blank (empty) string, which
Python splits into one empty label, scores 0.05, not 0.0. -/
theorem ccauc_regular_missing_zero :
    pontuar_ccauc none = 0 ∧
    (∀ s : String, normREG s = true → pontuar_ccauc (some s) = 0) ∧
    pontuar_ccauc_itens ([] : List String) = 0 ∧
    pontuar_ccauc (some "") = 1/20 := by
  refine ⟨rfl, fun s hs => ?_, ?_, ?_⟩
  · simp only [pontuar_ccauc, hs, if_true]
  · rw [pontuar_ccauc_itens_sem_grave (by rfl)]
    rw [show nMod ([] : List String) = 0 from rfl, show nLeve ([] : List String) = 0 from rfl]
    norm_num
  · have h1 : normREG "" = false := rfl
    have h2 : itens "" = [""] := rfl
    simp only [pontuar_ccauc, h1, Bool.false_eq_true, if_false, h2]
    rw [pontuar_ccauc_itens_sem_grave (by rfl)]
    rw [show nMod [""] = 0 from rfl, show nLeve [""] = 1 from rfl]
    norm_num

/-- C4 witness: the literal marker "REGULAR" scores 0.0. -/
theorem ccauc_regular_missing_zero_witness :
    pontuar_ccauc (some "REGULAR") = 0 :=
  ccauc_regular_missing_zero.2.1 "REGULAR" rfl

/-- C1: with all four Phase-0 inputs present the final score is exactly
`round(31·eorcam + 25·rrestos + 19·qsiconfi + 25·(1 − ccauc), 1)` (the
weights summing to 100), and scenario 1 (`eorcam=95, rrestos=0,
qsiconfi=1.0, pendencias="REGULAR"`) scores exactly 100.0, classified in
the lowest-risk band. -/
theorem score_formula_exact :
    PESO_TOTAL = 100 ∧
    (∀ (med : Option ℚ) (r : Row) (e x q c : ℚ),
      r.eorcam_raw = some e → r.rrestos_raw = some x →
      r.qsiconfi = some q → r.ccauc = some c →
      scoreRow med r = some (roundTo 1 (PESOS_eorcam * pontuar_eorcam e
        + PESOS_rrestos * pontuar_rrestos x
        + PESOS_qsiconfi * q + PESOS_ccauc * (1 - c)))) ∧
    scoreTable [entidadeCenario1] = [some 100] ∧
    classificar (some 100) = "🟢 Risco Baixo" := by
  have hforall : ∀ (med : Option ℚ) (r : Row) (e x q c : ℚ),
      r.eorcam_raw = some e → r.rrestos_raw = some x →
      r.qsiconfi = some q → r.ccauc = some c →
      scoreRow med r = some (roundTo 1 (PESOS_eorcam * pontuar_eorcam e
        + PESOS_rrestos * pontuar_rrestos x
        + PESOS_qsiconfi * q + PESOS_ccauc * (1 - c))) := by
    intro med r e x q c he hx hq hc
    simp only [scoreRow, rrestosNorm, he, hx, hq, hc, Option.getD_some]
  refine ⟨by norm_num [PESO_TOTAL, PESOS_eorcam, PESOS_rrestos, PESOS_qsiconfi, PESOS_ccauc],
    hforall, ?_, ?_⟩
  · have hreg : pontuar_ccauc (some "REGULAR") = 0 := by
      simp only [pontuar_ccauc]
      rw [if_pos (show normREG "REGULAR" = true from rfl)]
    have h1 := hforall (medianaRrestos [entidadeCenario1]) entidadeCenario1
      95 0 1 (pontuar_ccauc (some "REGULAR")) rfl rfl rfl rfl
    simp only [scoreTable, List.map, h1]
    rw [hreg, pontuar_eorcam_flat (by norm_num) (by norm_num), pontuar_rrestos_zero]
    rw [show PESOS_eorcam * 1 + PESOS_rrestos * 1 + PESOS_qsiconfi * 1 + PESOS_ccauc * (1 - 0)
      = 100 by norm_num [PESOS_eorcam, PESOS_rrestos, PESOS_qsiconfi, PESOS_ccauc]]
    rw [roundTo_eq_self 1000 (by norm_num)]
  · simp only [classificar]
    rw [if_pos (show (75:ℚ) ≤ 100 by norm_num)]

/-- C1 witness: the formula conjunct applied at a concrete fully-populated
row. -/
theorem score_formula_exact_witness :
    scoreRow none (Row.mk (some 95) (some 0) (some 1) (some 0))
      = some (roundTo 1 (PESOS_eorcam * pontuar_eorcam 95
          + PESOS_rrestos * pontuar_rrestos 0
          + PESOS_qsiconfi * 1 + PESOS_ccauc * (1 - 0))) :=
  score_formula_exact.2.1 none _ 95 0 1 0 rfl rfl rfl rfl

/-- C2: an entity absent from the SICONFI dataset (`eorcam_raw` missing)
gets a missing final score — never `some 0` — and is classified as the
distinct "⚫ Sem Dados" category, which differs from all four numeric risk
bands. -/
theorem sem_dados_score_none :
    ∀ (med : Option ℚ) (r : Row), r.eorcam_raw = none →
      scoreRow med r = none ∧
      scoreRow med r ≠ some 0 ∧
      classificar (scoreRow med r) = "⚫ Sem Dados" ∧
      "⚫ Sem Dados" ≠ "🟢 Risco Baixo" ∧ "⚫ Sem Dados" ≠ "🟡 Risco Médio" ∧
      "⚫ Sem Dados" ≠ "🔴 Risco Alto" ∧ "⚫ Sem Dados" ≠ "⛔ Crítico" := by
  intro med r h
  have hs : scoreRow med r = none := by
    unfold scoreRow
    rw [h]
  refine ⟨hs, by rw [hs]; exact fun hc => Option.noConfusion hc, by rw [hs]; rfl,
    by decide, by decide, by decide, by decide⟩

/-- C2 witness: a concrete entity with no SICONFI data, inside the full
two-phase pipeline. -/
theorem sem_dados_score_none_witness :
    scoreRow (medianaRrestos [entidadeSemSiconfi]) entidadeSemSiconfi = none ∧
    classificar (scoreRow (medianaRrestos [entidadeSemSiconfi]) entidadeSemSiconfi)
      = "⚫ Sem Dados" := by
  have h := sem_dados_score_none (medianaRrestos [entidadeSemSiconfi]) entidadeSemSiconfi rfl
  exact ⟨h.1, h.2.2.1⟩

/-- C5 counterexample: on the watch zone the score climbs with the ratio,
so `pontuar_eorcam` is NOT monotonically non-increasing for r < 90:
at 70 ≤ 80 < 90 the scores are 0 and 0.5. -/
theorem eorcam_low_counterexample :
    (70:ℚ) ≤ 80 ∧ (80:ℚ) < 90 ∧ pontuar_eorcam 70 = 0 ∧ pontuar_eorcam 80 = 1/2 ∧
    ¬ pontuar_eorcam 80 ≤ pontuar_eorcam 70 := by
  have h70 : pontuar_eorcam 70 = 0 := by
    unfold pontuar_eorcam
    rw [if_neg (by norm_num), if_neg (by norm_num), if_neg (by norm_num),
      if_pos (by norm_num)]
    rw [show ((70:ℚ) - 70) / 20 = 0 by norm_num, roundTo_zero]
  have h80 : pontuar_eorcam 80 = 1/2 := by
    unfold pontuar_eorcam
    rw [if_neg (by norm_num), if_neg (by norm_num), if_neg (by norm_num),
      if_pos (by norm_num)]
    rw [show ((80:ℚ) - 70) / 20 = 1/2 by norm_num, roundTo_half 4 (by norm_num)]
  refine ⟨by norm_num, by norm_num, h70, h80, ?_⟩
  rw [h70, h80]
  norm_num

/-- C5 amended: `pontuar_eorcam` stays in [0,1], is exactly 1 on [90,105],
is monotonically non-increasing for r > 105 (following
`round(1 − (x−105)/30, 4)` on (105,120] and flat 0.5 above 120), and is
monotonically non-DEcreasing — not non-increasing — for r < 90. -/
theorem eorcam_shape :
    (∀ x : ℚ, 0 ≤ pontuar_eorcam x ∧ pontuar_eorcam x ≤ 1) ∧
    (∀ x : ℚ, 90 ≤ x → x ≤ 105 → pontuar_eorcam x = 1) ∧
    (∀ x y : ℚ, 105 < x → x ≤ y → pontuar_eorcam y ≤ pontuar_eorcam x) ∧
    (∀ x y : ℚ, x ≤ y → y < 90 → pontuar_eorcam x ≤ pontuar_eorcam y) ∧
    (∀ x : ℚ, 105 < x → x ≤ 120 → pontuar_eorcam x = roundTo 4 (1 - (x - 105) / 30)) ∧
    (∀ x : ℚ, 120 < x → pontuar_eorcam x = 1/2) := by
  refine ⟨pontuar_eorcam_mem, fun x h1 h2 => pontuar_eorcam_flat h1 h2,
    fun x y hx hxy => pontuar_eorcam_anti_high hx hxy,
    fun x y hxy hy => pontuar_eorcam_mono_low hxy hy, fun x h1 h2 => ?_, fun x h => ?_⟩
  · unfold pontuar_eorcam
    rw [if_neg (by rintro ⟨_, hc⟩; linarith), if_neg (by linarith), if_pos h1]
  · unfold pontuar_eorcam
    rw [if_neg (by rintro ⟨_, hc⟩; linarith), if_pos h]

/-- C5 witness: the amended shape facts at concrete inputs. -/
theorem eorcam_shape_witness :
    (0 ≤ pontuar_eorcam 130 ∧ pontuar_eorcam 130 ≤ 1) ∧
    pontuar_eorcam 95 = 1 ∧
    pontuar_eorcam 118 ≤ pontuar_eorcam 110 ∧
    pontuar_eorcam 72 ≤ pontuar_eorcam 85 ∧
    pontuar_eorcam 110 = roundTo 4 (1 - ((110:ℚ) - 105) / 30) ∧
    pontuar_eorcam 130 = 1/2 :=
  ⟨eorcam_shape.1 130,
   eorcam_shape.2.1 95 (by norm_num) (by norm_num),
   eorcam_shape.2.2.1 110 118 (by norm_num) (by norm_num),
   eorcam_shape.2.2.2.1 72 85 (by norm_num) (by norm_num),
   eorcam_shape.2.2.2.2.1 110 (by norm_num) (by norm_num),
   eorcam_shape.2.2.2.2.2 130 (by norm_num)⟩

/-- C6: the arrears normalizer is 1 at 0 and 0 at 10, monotonically
non-increasing on [0,10]; a negative raw value is clamped to 0 (scoring
1.0) and raises the `dado_suspeito` flag, and such a record is still
scored by the aggregator, not dropped. -/
theorem rrestos_shape_clamp_flag :
    pontuar_rrestos 0 = 1 ∧
    pontuar_rrestos 10 = 0 ∧
    (∀ x y : ℚ, 0 ≤ x → x ≤ y → y ≤ 10 → pontuar_rrestos y ≤ pontuar_rrestos x) ∧
    (∀ x : ℚ, x < 0 → pontuar_rrestos x = pontuar_rrestos 0 ∧ pontuar_rrestos x = 1 ∧
      dado_suspeito_rrestos (some x) = true) ∧
    (∀ (med : Option ℚ) (r : Row) (x e : ℚ), r.rrestos_raw = some x → x < 0 →
      r.eorcam_raw = some e →
      rrestosNorm med r = some 1 ∧ (scoreRow med r).isSome = true) := by
  refine ⟨pontuar_rrestos_zero, pontuar_rrestos_ten,
    fun x y hx hxy hy => pontuar_rrestos_anti hx hxy hy,
    fun x hx => ⟨by rw [pontuar_rrestos_neg hx, pontuar_rrestos_zero],
      pontuar_rrestos_neg hx, decide_eq_true hx⟩,
    fun med r x e hr hx he => ?_⟩
  have hn : rrestosNorm med r = some 1 := by
    simp only [rrestosNorm, hr, pontuar_rrestos_neg hx]
  refine ⟨hn, ?_⟩
  simp only [scoreRow, he, hn, Option.isSome_some]

/-- C6 witness: scenario 3 of the spec, `rrestos = -5`. -/
theorem rrestos_shape_clamp_flag_witness :
    pontuar_rrestos (-5) = 1 ∧
    dado_suspeito_rrestos (some (-5)) = true ∧
    pontuar_rrestos 7 ≤ pontuar_rrestos 2 ∧
    rrestosNorm none (Row.mk (some 95) (some (-5)) (some 1) (some 0)) = some 1 :=
  ⟨(rrestos_shape_clamp_flag.2.2.2.1 (-5) (by norm_num)).2.1,
   (rrestos_shape_clamp_flag.2.2.2.1 (-5) (by norm_num)).2.2,
   rrestos_shape_clamp_flag.2.2.1 2 7 (by norm_num) (by norm_num) (by norm_num),
   (rrestos_shape_clamp_flag.2.2.2.2 none _ (-5) 95 rfl (by norm_num) rfl).1⟩

/-- C7: when the arrears ratio is missing but budget execution is present,
the resolved arrears goodness is exactly `pontuar_rrestos` applied to the
state-wide median of the clamped raw arrears over the rows that have data
— the same normalizer, no separate fallback constant. -/
theorem rrestos_fallback_median :
    ∀ (rows : List Row) (r : Row) (e m : ℚ),
      r.eorcam_raw = some e → r.rrestos_raw = none →
      medianaRrestos rows = some m →
      rrestosNorm (medianaRrestos rows) r = some (pontuar_rrestos m) := by
  intro rows r e m he hr hm
  simp only [rrestosNorm, hr, he, hm, Option.isSome_some, if_true, Option.map_some']

/-- C7 witness: a two-row table where the second row lacks arrears data;
the median of the clamped raws is 3 and the fallback goodness is
`pontuar_rrestos 3`. -/
theorem rrestos_fallback_median_witness :
    rrestosNorm
      (medianaRrestos [Row.mk (some 95) (some 3) (some 1) (some 0),
        Row.mk (some 98) none (some 1) (some 0)])
      (Row.mk (some 98) none (some 1) (some 0))
      = some (pontuar_rrestos 3) := by
  have hfm : ([Row.mk (some 95) (some 3) (some 1) (some 0),
      Row.mk (some 98) none (some 1) (some 0)].filterMap Row.rrestos_raw) = [3] := rfl
  have hmax : max (3:ℚ) 0 = 3 := max_eq_left (by norm_num)
  have hm : medianaRrestos [Row.mk (some 95) (some 3) (some 1) (some 0),
      Row.mk (some 98) none (some 1) (some 0)] = some 3 := by
    unfold medianaRrestos
    rw [hfm]
    rw [show ([3] : List ℚ).map (fun x => max x 0) = [3] by simp [hmax]]
    simp [mediana, sortQ, insertSorted]
  exact rrestos_fallback_median _ _ 98 3 rfl rfl hm

/-- C8 counterexample: the cash-solvency normalizer is NOT continuous at
x = 0.20: the flat segment below gives 0.75 while the segment at and above
0.20 gives 1.00 — a 0.25 jump, far beyond the 4-decimal rounding. -/
theorem scaixa_jump_counterexample :
    pontuar_scaixa (19/100) = 3/4 ∧ pontuar_scaixa (199999/1000000) = 3/4 ∧
    pontuar_scaixa (1/5) = 1 ∧
    pontuar_scaixa (1/5) - pontuar_scaixa (199999/1000000) = 1/4 := by
  have h19 : pontuar_scaixa (19/100) = 3/4 := by
    unfold pontuar_scaixa
    dsimp only
    rw [SCAIXA_CAP, max_eq_left (by norm_num), if_neg (by norm_num), if_pos (by norm_num)]
  have h199 : pontuar_scaixa (199999/1000000) = 3/4 := by
    unfold pontuar_scaixa
    dsimp only
    rw [SCAIXA_CAP, max_eq_left (by norm_num), if_neg (by norm_num), if_pos (by norm_num)]
  have h20 : pontuar_scaixa (1/5) = 1 := by
    unfold pontuar_scaixa
    dsimp only
    rw [SCAIXA_CAP, max_eq_left (by norm_num), if_pos (by norm_num)]
  refine ⟨h19, h199, h20, ?_⟩
  rw [h199, h20]
  norm_num

/-- C8 amended: `pontuar_scaixa` is continuous (exactly, hence up to the
4-decimal rounding) at x = 0 and at x = 0.10, where the adjacent segment
formulas agree; at x = 0.20 the adjacent segments produce 0.75 and 1.00,
a 0.25 jump. -/
theorem scaixa_continuity :
    scaixaNeg 0 = scaixaRampa 0 ∧
    scaixaRampa 0 = 1/2 ∧
    scaixaRampa (1/10) = 3/4 ∧
    (∀ x : ℚ, 0 ≤ x → x < 1/10 → pontuar_scaixa x = scaixaRampa x) ∧
    (∀ x : ℚ, 1/10 ≤ x → x < 1/5 → pontuar_scaixa x = 3/4) ∧
    pontuar_scaixa (1/5) = 1 := by
  have hneg0 : scaixaNeg 0 = 1/2 := by
    unfold scaixaNeg
    rw [show max (0:ℚ) ((1/2) * (1 - (-0 / (1/2))) ^ 2) = 1/2 by
      rw [max_eq_right (by norm_num)]; norm_num]
    exact roundTo_half 4 (by norm_num)
  have hram0 : scaixaRampa 0 = 1/2 := by
    unfold scaixaRampa
    rw [show (1/2 : ℚ) + (0 / (1/10)) * (1/4) = 1/2 by norm_num]
    exact roundTo_half 4 (by norm_num)
  have hram1 : scaixaRampa (1/10) = 3/4 := by
    unfold scaixaRampa
    rw [show (1/2 : ℚ) + ((1/10) / (1/10)) * (1/4) = 3/4 by norm_num]
    exact roundTo_eq_self 7500 (by norm_num)
  refine ⟨by rw [hneg0, hram0], hram0, hram1, fun x h0 h1 => ?_, fun x h0 h1 => ?_, ?_⟩
  · unfold pontuar_scaixa
    dsimp only
    rw [SCAIXA_CAP, max_eq_left (by linarith), if_neg (by push_neg; linarith),
      if_neg (by push_neg; linarith), if_pos h0]
  · unfold pontuar_scaixa
    dsimp only
    rw [SCAIXA_CAP, max_eq_left (by linarith), if_neg (by push_neg; linarith), if_pos h0]
  · unfold pontuar_scaixa
    dsimp only
    rw [SCAIXA_CAP, max_eq_left (by norm_num), if_pos (by norm_num)]

/-- C8 witness: the two conditional conjuncts of the amended statement at
concrete points. -/
theorem scaixa_continuity_witness :
    pontuar_scaixa (1/20) = scaixaRampa (1/20) ∧ pontuar_scaixa (3/20) = 3/4 :=
  ⟨scaixa_continuity.2.2.2.1 (1/20) (by norm_num) (by norm_num),
   scaixa_continuity.2.2.2.2.1 (3/20) (by norm_num) (by norm_num)⟩

/-- C9 counterexample: a pre-clamp cash-solvency ratio of exactly −0.50 is
≤ −0.50 yet does NOT raise the anomaly flag — the code tests strictly
`< -0.50`. -/
theorem scaixa_flag_boundary_counterexample :
    ((-(1/2) : ℚ) ≤ -(1/2)) ∧ dado_suspeito_scaixa (some (-(1/2))) = false := by
  refine ⟨le_refl _, ?_⟩
  simp only [dado_suspeito_scaixa, SCAIXA_ANOMALIA, decide_eq_false_iff_not]
  exact lt_irrefl _

/-- C9 amended: the flag is raised exactly for present pre-clamp ratios
strictly below −0.50; such records are still scored, with the clamped
value, to 0.0; ratios of −0.50 and above (and missing ratios) are not
flagged. -/
theorem scaixa_flag_strict :
    (∀ x : ℚ, x < -(1/2) → dado_suspeito_scaixa (some x) = true ∧ pontuar_scaixa x = 0) ∧
    (∀ x : ℚ, -(1/2) ≤ x → dado_suspeito_scaixa (some x) = false) ∧
    dado_suspeito_scaixa none = false ∧
    pontuar_scaixa (-(1/2)) = 0 := by
  have hzero : ∀ x : ℚ, x ≤ -(1/2) → pontuar_scaixa x = 0 := by
    intro x hx
    unfold pontuar_scaixa
    dsimp only
    rw [SCAIXA_CAP, max_eq_right hx, if_neg (by norm_num), if_neg (by norm_num),
      if_neg (by norm_num)]
    unfold scaixaNeg
    rw [show (1:ℚ) - -(-(1/2)) / (1/2) = 0 by norm_num]
    rw [show max (0:ℚ) ((1/2) * 0 ^ 2) = 0 by rw [max_eq_left (by norm_num)]]
    exact roundTo_zero 4
  refine ⟨fun x hx => ⟨?_, hzero x (le_of_lt hx)⟩, fun x hx => ?_, rfl,
    hzero _ (le_refl _)⟩
  · simp only [dado_suspeito_scaixa, SCAIXA_ANOMALIA]
    exact decide_eq_true hx
  · simp only [dado_suspeito_scaixa, SCAIXA_ANOMALIA, decide_eq_false_iff_not]
    exact not_lt.mpr hx

/-- C9 witness: a ratio of −0.75 is flagged and scores 0; a ratio of −0.30
is not flagged. -/
theorem scaixa_flag_strict_witness :
    (dado_suspeito_scaixa (some (-(3/4))) = true ∧ pontuar_scaixa (-(3/4)) = 0) ∧
    dado_suspeito_scaixa (some (-(3/10))) = false :=
  ⟨scaixa_flag_strict.1 (-(3/4)) (by norm_num),
   scaixa_flag_strict.2.1 (-(3/10)) (by norm_num)⟩

theorem rrestosNorm_mem {med : Option ℚ} {r : Row} {rn : ℚ}
    (h : rrestosNorm med r = some rn) : 0 ≤ rn ∧ rn ≤ 1 := by
  unfold rrestosNorm at h
  cases hr : r.rrestos_raw with
  | some x =>
    rw [hr] at h
    obtain rfl : rn = pontuar_rrestos x := (Option.some.inj h).symm
    exact pontuar_rrestos_mem x
  | none =>
    rw [hr] at h
    by_cases he : r.eorcam_raw.isSome
    · rw [if_pos he] at h
      cases hm : med with
      | none => rw [hm] at h; exact absurd h (by simp)
      | some m =>
        rw [hm] at h
        simp only [Option.map_some'] at h
        obtain rfl : rn = pontuar_rrestos m := (Option.some.inj h).symm
        exact pontuar_rrestos_mem m
    · rw [if_neg he] at h
      exact absurd h (by simp)

/-- C10: the weights sum to 100, every normalized term lies in [0,1]
(including after the fallbacks), and every defined final score lies in
[0,100]. -/
theorem score_bounds :
    PESO_TOTAL = 100 ∧
    (∀ x : ℚ, 0 ≤ pontuar_eorcam x ∧ pontuar_eorcam x ≤ 1) ∧
    (∀ x : ℚ, 0 ≤ pontuar_rrestos x ∧ pontuar_rrestos x ≤ 1) ∧
    (∀ p : Option String, 0 ≤ pontuar_ccauc p ∧ pontuar_ccauc p ≤ 1) ∧
    (∀ (med : Option ℚ) (r : Row) (s : ℚ),
      (∀ q, r.qsiconfi = some q → 0 ≤ q ∧ q ≤ 1) →
      (∀ c, r.ccauc = some c → 0 ≤ c ∧ c ≤ 1) →
      scoreRow med r = some s → 0 ≤ s ∧ s ≤ 100) := by
  refine ⟨by norm_num [PESO_TOTAL, PESOS_eorcam, PESOS_rrestos, PESOS_qsiconfi, PESOS_ccauc],
    pontuar_eorcam_mem, pontuar_rrestos_mem, pontuar_ccauc_mem, ?_⟩
  intro med r s hq hc hscore
  cases he : r.eorcam_raw with
  | none =>
    simp only [scoreRow, he] at hscore
    exact Option.noConfusion hscore
  | some e =>
    simp only [scoreRow, he] at hscore
    cases hrn : rrestosNorm med r with
    | none =>
      simp only [hrn] at hscore
      exact Option.noConfusion hscore
    | some rn =>
      simp only [hrn] at hscore
      obtain rfl : s = roundTo 1 (PESOS_eorcam * pontuar_eorcam e + PESOS_rrestos * rn
          + PESOS_qsiconfi * r.qsiconfi.getD 0 + PESOS_ccauc * (1 - r.ccauc.getD 1)) :=
        (Option.some.inj hscore).symm
      have hem := pontuar_eorcam_mem e
      have hrm := rrestosNorm_mem hrn
      have hqm : 0 ≤ r.qsiconfi.getD 0 ∧ r.qsiconfi.getD 0 ≤ 1 := by
        cases hqq : r.qsiconfi with
        | none => simp
        | some q => simpa using hq q hqq
      have hcm : 0 ≤ 1 - r.ccauc.getD 1 ∧ 1 - r.ccauc.getD 1 ≤ 1 := by
        cases hcc : r.ccauc with
        | none => simp
        | some c =>
          have := hc c hcc
          simp only [Option.getD_some]
          exact ⟨by linarith [this.2], by linarith [this.1]⟩
      constructor
      · refine roundTo_nonneg ?_
        simp only [PESOS_eorcam, PESOS_rrestos, PESOS_qsiconfi, PESOS_ccauc]
        nlinarith [hem.1, hrm.1, hqm.1, hcm.1]
      · have hS : PESOS_eorcam * pontuar_eorcam e + PESOS_rrestos * rn
            + PESOS_qsiconfi * r.qsiconfi.getD 0 + PESOS_ccauc * (1 - r.ccauc.getD 1) ≤ 100 := by
          simp only [PESOS_eorcam, PESOS_rrestos, PESOS_qsiconfi, PESOS_ccauc]
          nlinarith [hem.2, hrm.2, hqm.2, hcm.2]
        have h2 := roundTo_mono (n := 1) hS
        have h100 : roundTo 1 (100:ℚ) = 100 := roundTo_eq_self (x := 100) 1000 (by norm_num)
        rw [h100] at h2
        exact h2

/-- C10 witness: the bound conjunct applied at a concrete fully-populated
row whose score evaluates to 100. -/
theorem score_bounds_witness :
    0 ≤ (100:ℚ) ∧ (100:ℚ) ≤ 100 := by
  have hscore : scoreRow none (Row.mk (some 95) (some 0) (some 1) (some 0)) = some 100 := by
    simp only [scoreRow, rrestosNorm, Option.getD_some]
    rw [pontuar_eorcam_flat (by norm_num) (by norm_num), pontuar_rrestos_zero]
    rw [show PESOS_eorcam * 1 + PESOS_rrestos * 1 + PESOS_qsiconfi * 1 + PESOS_ccauc * (1 - 0)
      = 100 by norm_num [PESOS_eorcam, PESOS_rrestos, PESOS_qsiconfi, PESOS_ccauc]]
    rw [roundTo_eq_self 1000 (by norm_num)]
  exact score_bounds.2.2.2.2 none (Row.mk (some 95) (some 0) (some 1) (some 0)) 100
    (fun q hq => by
      obtain rfl : q = 1 := (Option.some.inj hq.symm)
      norm_num)
    (fun c hc => by
      obtain rfl : c = 0 := (Option.some.inj hc.symm)
      norm_num)
    hscore
